/-
  Verification of the flight-search core of the travel-assistant repository.

  The definitions below are a shallow embedding of `src/flight_search.py` and
  `src/utils.py`:
    * `Flight` models one catalog record (a JSON object); every field is
      optional, matching the dictionary-with-`get`-defaults style of the code.
    * `search` embeds `FlightSearcher.search` (flight_search.py, lines 50-122).
    * `parse_date` embeds `utils.parse_date`; the behaviour of the external
      `dateutil` parser on strings is a parameter `parse`, while the
      `TypeError` catch for a missing date is explicit.
    * `extractMaxPrice` embeds the price-ceiling part of `search_flights`
      (flight_search.py, lines 200-206), including a faithful simulation of
      the regular expression search for the pattern dollar-sign?(digit between 3 and 4 times).
    * `format_flight` / `format_flights_list` embed the formatter
      (utils.py, lines 63-115).
    * A second, dynamically-typed model (`JVal`, `searchD`) embeds the same
      search over raw JSON-like records, where Python operations that can
      raise (`<=` on mixed types, `.lower()` on non-strings, `len` on
      numbers) return `Except`.
-/
import Mathlib

namespace TravelAssistant

/-! ### String helpers (Python `str.lower` and the `in` substring test) -/

/-- Python `str.lower`, restricted to the character-wise case mapping. -/
def lowerStr (s : String) : String := String.mk (s.data.map Char.toLower)

/-- Test `startsWithList n h`: true when `n` is an initial segment of `h`. -/
def startsWithList : List Char → List Char → Bool
  | [], _ => true
  | _ :: _, [] => false
  | n :: ns, h :: hs => n == h && startsWithList ns hs

/-- Test `hasSubstr n h`: true when `n` occurs contiguously inside `h`
(Python `n in h` on strings; the empty string occurs in every string). -/
def hasSubstr (n : List Char) : List Char → Bool
  | [] => startsWithList n []
  | c :: t => startsWithList n (c :: t) || hasSubstr n t

/-- Python `needle in hay` for strings. -/
def strHas (needle hay : String) : Bool := hasSubstr needle.data hay.data

/-! ### Data model -/

/-- The result of the external `dateutil` parser: only the `month` and `year`
attributes of the returned `datetime` are ever read by the code. -/
structure PDate where
  year : Int
  month : Int
deriving DecidableEq

/-- One catalog record, a JSON object whose fields may all be absent.
`fromCity`/`toCity` carry the JSON keys `from`/`to` (`from` is a Lean
keyword).  Prices are exact rationals standing for the JSON numbers. -/
structure Flight where
  flight_id : Option String := none
  airline : Option String := none
  alliance : Option String := none
  fromCity : Option String := none
  toCity : Option String := none
  departure_date : Option String := none
  return_date : Option String := none
  price_usd : Option ℚ := none
  refundable : Option Bool := none
  layovers : Option (List String) := none
  overnight_layover : Option Bool := none
deriving DecidableEq

/-- The keyword arguments of `FlightSearcher.search`, with the defaults of
the Python signature. -/
structure Criteria where
  origin : Option String := none
  destination : Option String := none
  departure_month : Option Int := none
  departure_year : Option Int := none
  alliance : Option String := none
  airline : Option String := none
  max_price : Option ℚ := none
  refundable_only : Bool := false
  avoid_overnight_layover : Bool := false
  max_layovers : Option Int := none
deriving DecidableEq

/-- All criteria unset: the defaults of the Python signature. -/
def defaultCriteria : Criteria := {}

/-- Python truthiness of an `Optional[str]`: `None` and `""` are falsy. -/
def truthyOptStr : Option String → Bool
  | none => false
  | some s => s != ""

/-- Python truthiness of an `Optional[int]`: `None` and `0` are falsy. -/
def truthyOptInt : Option Int → Bool
  | none => false
  | some n => n != 0

/-- Embeds `utils.parse_date`: `dateutil.parser.parse` on a string (behaviour
abstracted as `parse`, which returns `none` where the parser raises
`ValueError`); a missing date raises `TypeError`, caught to `None`. -/
def parse_date (parse : String → Option PDate) : Option String → Option PDate
  | none => none
  | some s => parse s

/-- Embeds `FlightSearcher._matches_date` (flight_search.py, lines 124-139). -/
def matches_date (parse : String → Option PDate) (ds : Option String)
    (month year : Int) : Bool :=
  match parse_date parse ds with
  | none => false
  | some d => d.month == month && d.year == year

/-- The sort/filter key `x.get('price_usd', float('inf'))`: `none` stands
for the `float('inf')` default of a missing price. -/
def priceKey (f : Flight) : Option ℚ := f.price_usd

/-- Comparison of two price keys, where `none` is `float('inf')`. -/
def keyLe : Option ℚ → Option ℚ → Bool
  | _, none => true
  | none, some _ => false
  | some p, some q => p ≤ q

/-- The ordering used by `results.sort(key=...)`: ascending price keys. -/
def priceOrder (a b : Flight) : Prop := keyLe (priceKey a) (priceKey b) = true

instance : DecidableRel priceOrder := fun a b => by
  unfold priceOrder; infer_instance

instance : IsRefl Flight priceOrder where
  refl a := by unfold priceOrder keyLe; cases priceKey a <;> simp

instance : IsTotal Flight priceOrder where
  total a b := by
    unfold priceOrder keyLe
    cases priceKey a <;> cases priceKey b <;> simp [le_total]

instance : IsTrans Flight priceOrder where
  trans a b c := by
    unfold priceOrder keyLe
    cases priceKey a <;> cases priceKey b <;> cases priceKey c <;> simp
    exact le_trans

/-- Embeds `FlightSearcher.search` (flight_search.py, lines 50-122): each set
criterion narrows the working list in the order of the source, then the
result is sorted ascending by price key.  Python `list.sort` is a stable
sort; `List.insertionSort` with the same total preorder on keys is also
stable, hence computes the same list. -/
def search (parse : String → Option PDate) (c : Criteria)
    (flights : List Flight) : List Flight :=
  -- results = self.flights.copy()
  let results := flights
  -- if origin:
  let results :=
    match c.origin with
    | none => results
    | some o =>
      if o = "" then results
      else results.filter (fun f => strHas (lowerStr o) (lowerStr (f.fromCity.getD "")))
  -- if destination:
  let results :=
    match c.destination with
    | none => results
    | some d =>
      if d = "" then results
      else results.filter (fun f => strHas (lowerStr d) (lowerStr (f.toCity.getD "")))
  -- if departure_month and departure_year:
  let results :=
    match c.departure_month, c.departure_year with
    | some m, some y =>
      if m != 0 && y != 0 then
        results.filter (fun f => matches_date parse f.departure_date m y)
      else results
    | _, _ => results
  -- if alliance:
  let results :=
    match c.alliance with
    | none => results
    | some a =>
      if a = "" then results
      else results.filter (fun f => strHas (lowerStr a) (lowerStr (f.alliance.getD "")))
  -- if airline:
  let results :=
    match c.airline with
    | none => results
    | some a =>
      if a = "" then results
      else results.filter (fun f => strHas (lowerStr a) (lowerStr (f.airline.getD "")))
  -- if max_price is not None:
  let results :=
    match c.max_price with
    | none => results
    | some m => results.filter (fun f => keyLe (priceKey f) (some m))
  -- if refundable_only:
  let results :=
    if c.refundable_only then results.filter (fun f => f.refundable.getD false)
    else results
  -- if avoid_overnight_layover:
  let results :=
    if c.avoid_overnight_layover then
      results.filter (fun f => !(f.overnight_layover.getD false))
    else results
  -- if max_layovers is not None:
  let results :=
    match c.max_layovers with
    | none => results
    | some k => results.filter (fun f => decide (((f.layovers.getD []).length : Int) ≤ k))
  -- results.sort(key=lambda x: x.get('price_usd', float('inf')))
  List.insertionSort priceOrder results

/-! ### Price-ceiling extraction (`search_flights`, flight_search.py 200-206)

The code runs `re.search` for the pattern `\$?(\d{3,4})` over the
original-case query and converts group 1 to a float.  `reSearchPrice`
simulates that search exactly: positions are tried left to right; at a
position the optional dollar sign is consumed greedily (backtracking to the
empty alternative cannot help, since a dollar sign is not a digit), then the
greedy `\d{3,4}` takes four digits when a fourth is available, else three,
and fails on fewer than three. -/

/-- Numeric value of a list of decimal digit characters. -/
def natOfDigits (ds : List Char) : Nat :=
  ds.foldl (fun n c => 10 * n + (c.toNat - '0'.toNat)) 0

/-- Greedy `\d{3,4}` anchored at the head of `cs`: the first four digits if
available, else three; fails on fewer than three. -/
def digitsAt (cs : List Char) : Option Nat :=
  let g := (cs.takeWhile Char.isDigit).take 4
  if 3 ≤ g.length then some (natOfDigits g) else none

/-- The pattern `\$?(\d{3,4})` anchored at the head of `cs`, returning the
value of group 1: a leading dollar sign is consumed (backtracking to the
empty alternative leaves the dollar sign facing `\d`, which fails). -/
def matchAt : List Char → Option Nat
  | [] => none
  | c :: rest => if c = '$' then digitsAt rest else digitsAt (c :: rest)

/-- Runs `re.search` for the price pattern: the match at the leftmost position where
the pattern matches, scanning left to right. -/
def reSearchPrice : List Char → Option Nat
  | [] => none
  | c :: rest =>
    match matchAt (c :: rest) with
    | some v => some v
    | none => reSearchPrice rest

/-- The trigger test of lines 201: one of the phrases in the lowercased
query. -/
def hasTrigger (q : String) : Bool :=
  strHas "under" (lowerStr q) || strHas "less than" (lowerStr q) ||
    strHas "below" (lowerStr q)

/-- The `max_price` produced by `search_flights` (lines 200-206): attempted
only when a trigger phrase occurs; the matched digit group is converted by
`float(...)`, exact on digit strings. -/
def extractMaxPrice (q : String) : Option ℚ :=
  if hasTrigger q then (reSearchPrice q.data).map (fun n => (n : ℚ)) else none

/-- Modelled from the spec wording of the price rule: the value of the first
run of three to four consecutive digits in the text, scanning left to right
and taking a fourth digit when one follows the first three; a possible
preceding dollar sign does not change the captured digits. -/
def firstRun34 : List Char → Option Nat
  | [] => none
  | c :: rest =>
    match digitsAt (c :: rest) with
    | some v => some v
    | none => firstRun34 rest

/-! ### Result formatter (`utils.format_flight` / `format_flights_list`) -/

/-- Python `ch * n` for a one-character string. -/
def repChar (c : Char) (n : Nat) : String := String.mk (List.replicate n c)

/-- Rendering of a JSON price in the flight block.  Python prints the float
(for example `750.0`); whole-valued prices are rendered that way here, other
rationals by their exact form.  Presentation-only: no theorem below depends
on these digits. -/
def showPrice (q : ℚ) : String :=
  if q.den = 1 then toString q.num ++ ".0" else toString q

/-- Embeds `utils.format_flight` (utils.py, lines 63-88). -/
def format_flight (f : Flight) : String :=
  -- if flight.get("layovers"):  (a missing or empty list is falsy)
  let layover_str :=
    match f.layovers with
    | some (l :: ls) =>
      let layovers := String.intercalate ", " (l :: ls)
      let overnight :=
        if f.overnight_layover.getD false then " (overnight)" else ""
      "\n  Layovers: " ++ layovers ++ overnight
    | _ => ""
  let refundable := if f.refundable.getD false then "Yes" else "No"
  "\nFlight " ++ f.flight_id.getD "N/A" ++ ":\n  Airline: " ++
    f.airline.getD "N/A" ++ " (" ++ f.alliance.getD "N/A" ++ ")\n  Route: " ++
    f.fromCity.getD "N/A" ++ " → " ++ f.toCity.getD "N/A" ++ layover_str ++
    "\n  Dates: " ++ f.departure_date.getD "N/A" ++ " to " ++
    f.return_date.getD "N/A" ++ "\n  Price: $" ++
    (match f.price_usd with | none => "N/A" | some p => showPrice p) ++
    " USD\n  Refundable: " ++ refundable ++ "\n"

/-- The count header of `format_flights_list`. -/
def listHeader (n : Nat) : String :=
  "Found " ++ toString n ++ " flight(s):\n" ++ repChar '=' 50 ++ "\n"

/-- The block appended per displayed flight: the flight text and the dashed
rule. -/
def flightBlock (f : Flight) : String :=
  format_flight f ++ repChar '-' 50 ++ "\n"

/-- The `for flight in flights[:max_results]` accumulation loop. -/
def flightBlocks (fs : List Flight) : String :=
  fs.foldl (fun acc f => acc ++ flightBlock f) ""

/-- The trailing truncation note. -/
def truncNote (maxResults n : Nat) : String :=
  "\n(Showing top " ++ toString maxResults ++ " of " ++ toString n ++
    " results)"

/-- Embeds `utils.format_flights_list` (utils.py, lines 91-115). -/
def format_flights_list (flights : List Flight) (max_results : Nat := 5) :
    String :=
  -- if not flights:
  if flights = [] then "No flights found matching your criteria."
  else
    listHeader flights.length ++ flightBlocks (flights.take max_results) ++
      (if flights.length > max_results then
        truncNote max_results flights.length
      else "")

/-- The searcher object: its one piece of state is the loaded catalog. -/
structure Searcher where
  flights : List Flight
deriving DecidableEq

/-- Embeds `FlightSearcher.search` as a state transformer on the searcher: the body
copies `self.flights` into the local `results`, rebinding it at each filter,
and the in-place sort acts on that copy, so the field is never written. -/
def searchStateful (parse : String → Option PDate) (c : Criteria)
    (st : Searcher) : List Flight × Searcher :=
  (search parse c st.flights, st)

/-! ### Dynamically-typed model of `search`

The typed model above fixes the type of each present field.  To examine what
the Python code does on records whose fields are present but of the wrong
type, the model below runs the same pipeline over raw JSON-like values,
with every Python operation that can raise returning `Except`.  Nested
JSON objects are not modelled; the catalog schema has none. -/

/-- A JSON value as Python sees it. -/
inductive JVal where
  | null
  | bool (b : Bool)
  | num (q : ℚ)
  | str (s : String)
  | arr (elems : List JVal)

/-- A catalog record as a raw key-value list (a Python dict; lookups take
the first binding). -/
abbrev Dyn : Type := List (String × JVal)

/-- The exceptions the pipeline can raise. -/
inductive PyErr where
  | typeError
  | attributeError
deriving DecidableEq

/-- Python `d.get(k, dflt)`. -/
def dGet (d : Dyn) (k : String) (dflt : JVal) : JVal :=
  match d.find? (fun p => p.1 == k) with
  | some p => p.2
  | none => dflt

/-- Python `d.get(k)` with the `None` default, `none` meaning absent-or-null. -/
def dGetOpt (d : Dyn) (k : String) : Option JVal :=
  (d.find? (fun p => p.1 == k)).map (fun p => p.2)

/-- Python truthiness of a JSON value: total, never raises. -/
def pyTruthy : JVal → Bool
  | .null => false
  | .bool b => b
  | .num q => q != 0
  | .str s => s != ""
  | .arr xs => !xs.isEmpty

/-- Python `v.lower()`: only strings have the attribute; anything else raises
`AttributeError`. -/
def pyLower : JVal → Except PyErr String
  | .str s => .ok (lowerStr s)
  | _ => .error .attributeError

/-- Python `f.get('price_usd', float('inf')) <= max_price` for a finite float
ceiling: `none` is the infinity default and compares `False`; numbers and
booleans (numeric in Python, `True == 1`) compare; `<=` between any other
type and a float raises `TypeError`. -/
def pyPriceLe (v : Option JVal) (m : ℚ) : Except PyErr Bool :=
  match v with
  | none => .ok false
  | some (.num q) => .ok (decide (q ≤ m))
  | some (.bool b) => .ok (decide ((if b then (1 : ℚ) else 0) ≤ m))
  | some _ => .error .typeError

/-- Python `len(v)`: defined on strings and lists, `TypeError` otherwise. -/
def pyLen : JVal → Except PyErr Nat
  | .str s => .ok s.length
  | .arr xs => .ok xs.length
  | _ => .error .typeError

/-- Embeds `utils.parse_date` applied to a raw field value: `dateutil` raises
`TypeError` on `None` and on non-strings, which the function catches to
`None`; strings go through the abstracted parser. -/
def parse_dateD (parse : String → Option PDate) : Option JVal → Option PDate
  | some (.str s) => parse s
  | _ => none

/-- Embeds `_matches_date` over a raw field value. -/
def matches_dateD (parse : String → Option PDate) (v : Option JVal)
    (month year : Int) : Bool :=
  match parse_dateD parse v with
  | none => false
  | some d => d.month == month && d.year == year

/-- A Python list comprehension `[x for x in l if p(x)]`: predicates are
evaluated left to right and the first exception aborts the whole search. -/
def filterE (p : α → Except PyErr Bool) : List α → Except PyErr (List α)
  | [] => .ok []
  | x :: xs => do
    let b ← p x
    let rest ← filterE p xs
    pure (if b then x :: rest else rest)

/-- The sort key `x.get('price_usd', float('inf'))` of a raw record:
`none` is the infinity default. -/
def dPriceKey (d : Dyn) : Option JVal := dGetOpt d "price_usd"

/-- Keys that behave as numbers under Python comparison (numbers, booleans,
and the missing-price infinity). -/
def keyIsNumeric : Option JVal → Bool
  | none => true
  | some (.num _) => true
  | some (.bool _) => true
  | some _ => false

/-- The numeric value of a numeric key, `none` again standing for the
infinity default. -/
def numKeyVal : Option JVal → Option ℚ
  | none => none
  | some (.num q) => some q
  | some (.bool b) => some (if b then 1 else 0)
  | some _ => none

/-- Embeds `results.sort(key=...)` over raw records.  Python timsort raises
`TypeError` the first time it compares two keys of incompatible types;
when every key is numeric or missing (the documented schema) no comparison
can raise and the stable sort succeeds, and a list of length at most one is
returned without any comparison.  Remaining cases (length at least two with
some non-numeric key) are mapped to `TypeError`; this is exact when numeric
and non-numeric keys are mixed, and conservative for uniformly non-numeric
keys (for example all-string prices, which Python would order
lexicographically).  No theorem below depends on that conservative case. -/
def sortD (rs : List Dyn) : Except PyErr (List Dyn) :=
  if rs.all (fun d => keyIsNumeric (dPriceKey d)) then
    .ok (List.insertionSort
      (fun a b => keyLe (numKeyVal (dPriceKey a)) (numKeyVal (dPriceKey b)) = true) rs)
  else if rs.length ≤ 1 then .ok rs
  else .error .typeError

/-- The shared shape of the origin (lines 53-58), destination (61-66),
alliance (76-81) and airline (84-89) blocks over raw records: when the
criterion is truthy, keep the records whose field (defaulting to the empty
string) lowercases to a string containing the lowercased criterion. -/
def strFieldStageD (key : String) : Option String → List Dyn →
    Except PyErr (List Dyn)
  | none, rs => .ok rs
  | some s, rs =>
    if s = "" then .ok rs
    else filterE (fun f => do
      let t ← pyLower (dGet f key (.str ""))
      pure (strHas (lowerStr s) t)) rs

/-- The origin block of `search` over raw records (lines 53-58). -/
def originStageD (o : Option String) (rs : List Dyn) :
    Except PyErr (List Dyn) :=
  strFieldStageD "from" o rs

/-- The destination block (lines 61-66). -/
def destStageD (o : Option String) (rs : List Dyn) :
    Except PyErr (List Dyn) :=
  strFieldStageD "to" o rs

/-- The departure-date block (lines 69-73); never raises. -/
def dateStageD (parse : String → Option PDate) : Option Int → Option Int →
    List Dyn → Except PyErr (List Dyn)
  | some m, some y, rs =>
    if m != 0 && y != 0 then
      filterE (fun f =>
        pure (matches_dateD parse (dGetOpt f "departure_date") m y)) rs
    else .ok rs
  | _, _, rs => .ok rs

/-- The alliance block (lines 76-81). -/
def allianceStageD (o : Option String) (rs : List Dyn) :
    Except PyErr (List Dyn) :=
  strFieldStageD "alliance" o rs

/-- The airline block (lines 84-89). -/
def airlineStageD (o : Option String) (rs : List Dyn) :
    Except PyErr (List Dyn) :=
  strFieldStageD "airline" o rs

/-- The max-price block (lines 92-96). -/
def priceStageD (mp : Option ℚ) (rs : List Dyn) : Except PyErr (List Dyn) :=
  match mp with
  | none => .ok rs
  | some m => filterE (fun f => pyPriceLe (dGetOpt f "price_usd") m) rs

/-- The refundable block (lines 99-103); truthiness never raises. -/
def refundableStageD (only : Bool) (rs : List Dyn) : Except PyErr (List Dyn) :=
  if only then
    filterE (fun f => pure (pyTruthy (dGet f "refundable" (.bool false)))) rs
  else .ok rs

/-- The overnight-layover block (lines 106-110); truthiness never raises. -/
def overnightStageD (avoid : Bool) (rs : List Dyn) : Except PyErr (List Dyn) :=
  if avoid then
    filterE (fun f =>
      pure (!(pyTruthy (dGet f "overnight_layover" (.bool false))))) rs
  else .ok rs

/-- The layover-count block (lines 113-117). -/
def layoverStageD (ml : Option Int) (rs : List Dyn) : Except PyErr (List Dyn) :=
  match ml with
  | none => .ok rs
  | some k => filterE (fun f => do
      let n ← pyLen (dGet f "layovers" (.arr []))
      pure (decide ((n : Int) ≤ k))) rs

/-- Embeds `FlightSearcher.search` over raw records: the same pipeline as `search`,
with each Python operation that can raise made explicit. -/
def searchD (parse : String → Option PDate) (c : Criteria)
    (flights : List Dyn) : Except PyErr (List Dyn) := do
  let r ← originStageD c.origin flights
  let r ← destStageD c.destination r
  let r ← dateStageD parse c.departure_month c.departure_year r
  let r ← allianceStageD c.alliance r
  let r ← airlineStageD c.airline r
  let r ← priceStageD c.max_price r
  let r ← refundableStageD c.refundable_only r
  let r ← overnightStageD c.avoid_overnight_layover r
  let r ← layoverStageD c.max_layovers r
  sortD r

/-- Well-typedness of one present field of a raw record, per the documented
schema: route and carrier fields are strings (they are lowercased), the
price is a number (it is compared with a float), layovers form a list
(they are measured with `len`); every other field may hold anything, since
truthiness tests and the guarded date parse never raise. -/
def fieldOk (k : String) (v : JVal) : Bool :=
  if k == "from" || k == "to" || k == "airline" || k == "alliance" then
    match v with | .str _ => true | _ => false
  else if k == "price_usd" then
    match v with | .num _ => true | _ => false
  else if k == "layovers" then
    match v with | .arr _ => true | _ => false
  else true

/-- A raw catalog record whose present fields all follow the schema;
any subset of fields may be missing. -/
abbrev wellTypedRec (d : Dyn) : Prop := ∀ kv ∈ d, fieldOk kv.1 kv.2 = true

/-! ### Concrete fixtures used by witnesses -/

/-- A date parser that accepts nothing (every string unparseable). -/
def parseNone : String → Option PDate := fun _ => none

/-- A date parser accepting exactly one ISO date, August 2025. -/
def parseAug : String → Option PDate :=
  fun s => if s = "2025-08-15" then some ⟨2025, 8⟩ else none

/-- A flight departing in August 2025. -/
def fAug : Flight :=
  { flight_id := some "F1", departure_date := some "2025-08-15",
    price_usd := some 500 }

/-- A flight with an unparseable departure date. -/
def fBad : Flight :=
  { flight_id := some "F2", departure_date := some "not a date",
    price_usd := some 300 }

/-- A direct flight: empty layover list, overnight flag absent. -/
def fDirect : Flight := { flight_id := some "F3", layovers := some [] }

/-- Criteria with only a max price set. -/
def maxPriceOnly (m : ℚ) : Criteria := { max_price := some m }

/-- Criteria with only the avoid-overnight flag set. -/
def avoidOvernightOnly : Criteria := { avoid_overnight_layover := true }

/-- Criteria with only departure month and year set. -/
def monthYearOnly (m y : Int) : Criteria :=
  { departure_month := some m, departure_year := some y }

/-- A record with every field absent. -/
def emptyFlight : Flight := {}

/-- Eight matching flights, for the truncation instance. -/
def fs8 : List Flight := List.replicate 8 emptyFlight

/-- Three matching flights: fewer than the display maximum. -/
def fs3 : List Flight := List.replicate 3 emptyFlight

/-- A raw record whose price field holds a string: present but ill-typed. -/
def dynBadPrice : Dyn := [("price_usd", JVal.str "cheap")]

/-- A schema-conforming raw record with some fields missing. -/
def dynGood : Dyn :=
  [("from", JVal.str "Dubai"), ("to", JVal.str "Tokyo"),
   ("price_usd", JVal.num 750), ("refundable", JVal.bool true),
   ("layovers", JVal.arr [JVal.str "Bangkok"])]

/-! ### Helper lemmas -/

theorem keyLe_refl (x : Option ℚ) : keyLe x x = true := by
  cases x <;> simp [keyLe]

/-- Stability of one ordered insertion: filtering the inserted list by a
price key either prepends the new element (equal key) or leaves the
filtered list unchanged (different key). -/
theorem filter_orderedInsert_priceKey (a : Flight) (s : List Flight)
    (k : Option ℚ) :
    (List.orderedInsert priceOrder a s).filter (fun f => decide (priceKey f = k))
      = if priceKey a = k then
          a :: s.filter (fun f => decide (priceKey f = k))
        else s.filter (fun f => decide (priceKey f = k)) := by
  rw [List.orderedInsert_eq_take_drop, List.filter_append]
  by_cases hk : priceKey a = k
  · rw [if_pos hk]
    have htake : (s.takeWhile fun b => decide ¬priceOrder a b).filter
        (fun f => decide (priceKey f = k)) = [] := by
      rw [List.filter_eq_nil_iff]
      intro b hb
      have hb' := List.mem_takeWhile_imp hb
      simp only [decide_eq_true_eq] at hb'
      simp only [decide_eq_true_eq]
      intro hbk
      apply hb'
      show keyLe (priceKey a) (priceKey b) = true
      rw [hk, hbk]
      exact keyLe_refl k
    rw [htake, List.filter_cons_of_pos (by simp [hk])]
    conv_rhs =>
      rw [← List.takeWhile_append_dropWhile
        (p := fun b => decide ¬priceOrder a b) (l := s)]
    rw [List.filter_append, htake]
    rfl
  · rw [if_neg hk]
    rw [List.filter_cons_of_neg (by simp [hk])]
    conv_rhs =>
      rw [← List.takeWhile_append_dropWhile
        (p := fun b => decide ¬priceOrder a b) (l := s)]
    rw [List.filter_append]

/-- Stability of the sort in `search`: filtering by any price key commutes
with the sort, hence records of equal key keep their relative order. -/
theorem filter_insertionSort_priceKey (l : List Flight) (k : Option ℚ) :
    (List.insertionSort priceOrder l).filter (fun f => decide (priceKey f = k))
      = l.filter (fun f => decide (priceKey f = k)) := by
  induction l with
  | nil => rfl
  | cons a t ih =>
    rw [List.insertionSort, filter_orderedInsert_priceKey, List.filter_cons]
    by_cases hk : priceKey a = k
    · rw [if_pos hk, ih, if_pos (by simp [hk])]
    · rw [if_neg hk, ih, if_neg (by simp [hk])]

/-! ### The claims -/

/-- C1: with every criterion unset, `search` returns a permutation of the
whole catalog, sorted ascending by price key (a missing price is the
infinite key, so it sorts after every priced record), and stably: for every
key value, the records holding that key appear in their catalog order. -/
theorem claim_c1_all_unset_stable_price_sort
    (parse : String → Option PDate) (catalog : List Flight) :
    (search parse defaultCriteria catalog).Perm catalog
    ∧ List.Pairwise priceOrder (search parse defaultCriteria catalog)
    ∧ ∀ k : Option ℚ,
        (search parse defaultCriteria catalog).filter
            (fun f => decide (priceKey f = k))
          = catalog.filter (fun f => decide (priceKey f = k)) := by
  have hs : search parse defaultCriteria catalog
      = List.insertionSort priceOrder catalog := rfl
  refine ⟨?_, ?_, ?_⟩
  · rw [hs]; exact List.perm_insertionSort priceOrder catalog
  · rw [hs]; exact List.sorted_insertionSort priceOrder catalog
  · intro k; rw [hs]; exact filter_insertionSort_priceKey catalog k

/-- C5: `search` is a pure read: the searcher state after a call is the
state before it, and a second call on that state returns the same list. -/
theorem claim_c5_search_pure_read (parse : String → Option PDate)
    (c : Criteria) (st : Searcher) :
    (searchStateful parse c st).2 = st
    ∧ (searchStateful parse c ((searchStateful parse c st).2)).1
        = (searchStateful parse c st).1 :=
  ⟨rfl, rfl⟩

/-- C6: under a max-price-only search, a flight is returned exactly when it
is in the catalog and carries a price at most the ceiling; a flight with a
missing price (the infinite key) is always excluded. -/
theorem claim_c6_max_price_filter (parse : String → Option PDate)
    (catalog : List Flight) (f : Flight) (m : ℚ) :
    f ∈ search parse (maxPriceOnly m) catalog
      ↔ f ∈ catalog ∧ ∃ p, f.price_usd = some p ∧ p ≤ m := by
  have hs : search parse (maxPriceOnly m) catalog
      = List.insertionSort priceOrder
          (catalog.filter (fun f => keyLe (priceKey f) (some m))) := rfl
  rw [hs, List.mem_insertionSort, List.mem_filter]
  refine and_congr Iff.rfl ?_
  cases hp : f.price_usd with
  | none => simp [priceKey, keyLe, hp]
  | some p => simp [priceKey, keyLe, hp]

/-- C8: the formatter maps the empty result list to the fixed no-results
message, never the empty string, whatever the display maximum. -/
theorem claim_c8_empty_results_message (k : Nat) :
    format_flights_list [] k = "No flights found matching your criteria."
    ∧ format_flights_list [] k ≠ "" := by
  have hne : ("No flights found matching your criteria." : String) ≠ "" := by
    decide
  exact ⟨rfl, fun h => hne (by rw [← h]; rfl)⟩

/-- C9: a flight with an empty layover list and no overnight flag passes an
avoid-overnight-only search: the missing flag defaults to false. -/
theorem claim_c9_missing_overnight_defaults_false
    (parse : String → Option PDate) (catalog : List Flight) (f : Flight)
    (hf : f ∈ catalog) (_hl : f.layovers = some [])
    (ho : f.overnight_layover = none) :
    f ∈ search parse avoidOvernightOnly catalog := by
  have hs : search parse avoidOvernightOnly catalog
      = List.insertionSort priceOrder
          (catalog.filter (fun f => !(f.overnight_layover.getD false))) := rfl
  rw [hs, List.mem_insertionSort, List.mem_filter]
  exact ⟨hf, by rw [ho]; rfl⟩

/-- Witness for C9 at a concrete catalog: the direct flight with no
overnight flag is returned. -/
theorem claim_c9_witness :
    fDirect ∈ search parseNone avoidOvernightOnly [fAug, fDirect] :=
  claim_c9_missing_overnight_defaults_false parseNone [fAug, fDirect] fDirect
    (by decide) rfl rfl

/-- C2: with a truthy month in 1..12 and a truthy year set, a flight is
returned exactly when it is in the catalog and its departure date parses to
that month and year.  An absent date gives `parse_date ... none = none` by
definition, and an unparseable one gives `parse ... = none`, so neither ever
matches, for every requested month and year. -/
theorem claim_c2_month_year_filter (parse : String → Option PDate)
    (catalog : List Flight) (m y : Int) (hm1 : 1 ≤ m) (hm2 : m ≤ 12)
    (hy : y ≠ 0) (f : Flight) :
    f ∈ search parse (monthYearOnly m y) catalog
      ↔ f ∈ catalog ∧ ∃ d, parse_date parse f.departure_date = some d
          ∧ d.month = m ∧ d.year = y := by
  have hmy : (m != 0 && y != 0) = true := by
    simp only [Bool.and_eq_true, bne_iff_ne, ne_eq]
    omega
  have hs : search parse (monthYearOnly m y) catalog
      = List.insertionSort priceOrder
          (catalog.filter (fun f => matches_date parse f.departure_date m y)) := by
    unfold search monthYearOnly
    simp [hmy]
  rw [hs, List.mem_insertionSort, List.mem_filter]
  refine and_congr Iff.rfl ?_
  cases hpd : parse_date parse f.departure_date with
  | none => simp [matches_date, hpd]
  | some d => simp [matches_date, hpd]

/-- Witness for C2: at month 8, year 2025, the August flight is returned
and the flight with an unparseable date is not. -/
theorem claim_c2_witness :
    fAug ∈ search parseAug (monthYearOnly 8 2025) [fBad, fAug]
    ∧ fBad ∉ search parseAug (monthYearOnly 8 2025) [fBad, fAug] := by
  constructor
  · exact (claim_c2_month_year_filter parseAug [fBad, fAug] 8 2025
      (by decide) (by decide) (by decide) fAug).mpr
      ⟨by decide, ⟨2025, 8⟩, by decide, rfl, rfl⟩
  · intro hmem
    obtain ⟨-, d, hd, -⟩ := (claim_c2_month_year_filter parseAug [fBad, fAug]
      8 2025 (by decide) (by decide) (by decide) fBad).mp hmem
    have hnone : parse_date parseAug fBad.departure_date = none := by decide
    rw [hnone] at hd
    exact Option.noConfusion hd

/-- C10: the date filter runs only when month and year are both set and
non-zero; otherwise `search` coincides with the same search with the
month/year criteria entirely unset. -/
theorem claim_c10_date_filter_needs_both (parse : String → Option PDate)
    (catalog : List Flight) (c : Criteria)
    (h : c.departure_month = none ∨ c.departure_year = none
       ∨ c.departure_month = some 0 ∨ c.departure_year = some 0) :
    search parse c catalog
      = search parse
          { c with departure_month := none, departure_year := none }
          catalog := by
  obtain ⟨o, d, dm, dy, al, ai, mp, ro, av, ml⟩ := c
  rcases dm with _ | m
  · rfl
  · rcases dy with _ | yv
    · rfl
    · have hmy : m = 0 ∨ yv = 0 := by
        rcases h with h | h | h | h
        · exact absurd h (by simp)
        · exact absurd h (by simp)
        · exact Or.inl (Option.some.inj h)
        · exact Or.inr (Option.some.inj h)
      have hcond : (m != 0 && yv != 0) = false := by
        rcases hmy with rfl | rfl <;> simp
      unfold search
      simp [hcond]

/-- Witness for C10: month set to 8 with the year unset changes nothing
against the all-unset search. -/
theorem claim_c10_witness :
    search parseAug { departure_month := some 8 } [fAug, fBad]
      = search parseAug defaultCriteria [fAug, fBad] :=
  claim_c10_date_filter_needs_both parseAug [fAug, fBad]
    { departure_month := some 8 } (Or.inr (Or.inl rfl))

/-- The optional dollar sign in the pattern never changes the captured
digits: the regex search finds exactly the first run of three to four
consecutive digits. -/
theorem reSearchPrice_eq_firstRun34 (cs : List Char) :
    reSearchPrice cs = firstRun34 cs := by
  induction cs with
  | nil => rfl
  | cons c rest ih =>
    by_cases hc : c = '$'
    · subst hc
      have hd : digitsAt ('$' :: rest) = none := by
        simp [digitsAt, List.takeWhile]
      have hm : matchAt ('$' :: rest) = digitsAt rest := by simp [matchAt]
      rw [reSearchPrice, firstRun34, hm, hd]
      cases hr : digitsAt rest with
      | none => simpa [hr] using ih
      | some v =>
        cases rest with
        | nil => simp [digitsAt] at hr
        | cons d t => rw [firstRun34, hr]
    · have hm : matchAt (c :: rest) = digitsAt (c :: rest) := by
        simp [matchAt, hc]
      rw [reSearchPrice, firstRun34, hm]
      cases hd : digitsAt (c :: rest) with
      | none => simpa [hd] using ih
      | some v => rfl

/-- C3: the extractor sets a price ceiling only when the lowercased query
contains "under", "less than" or "below"; with a trigger present, the
ceiling is the value of the first run of three to four consecutive digits
anywhere in the original-case text (a preceding dollar sign changes
nothing, and a fourth digit is taken when one follows the first three);
with a trigger but no such run, the ceiling stays unset and the
extraction is a total function. -/
theorem claim_c3_price_ceiling (q : String) :
    extractMaxPrice q
      = if hasTrigger q then (firstRun34 q.data).map (fun n => (n : ℚ))
        else none := by
  unfold extractMaxPrice
  rw [reSearchPrice_eq_firstRun34]

theorem startsWithList_append (n t : List Char) :
    startsWithList n (n ++ t) = true := by
  induction n with
  | nil => rfl
  | cons c m ih => simp [startsWithList, ih]

theorem hasSubstr_append_left (n x h : List Char)
    (hh : hasSubstr n h = true) : hasSubstr n (x ++ h) = true := by
  induction x with
  | nil => simpa using hh
  | cons c t ih =>
    rw [List.cons_append]
    simp only [hasSubstr, Bool.or_eq_true]
    exact Or.inr ih

theorem hasSubstr_self_append (n t : List Char) :
    hasSubstr n (n ++ t) = true := by
  cases n with
  | nil =>
    cases t with
    | nil => rfl
    | cons c u => simp [hasSubstr, startsWithList]
  | cons c m =>
    simp only [List.cons_append, hasSubstr, Bool.or_eq_true]
    exact Or.inl (by simpa [List.cons_append] using
      startsWithList_append (c :: m) t)

/-- A string occurs in any concatenation that embeds it whole. -/
theorem strHas_parts (pre mid post : String) :
    strHas mid (pre ++ mid ++ post) = true := by
  unfold strHas
  rw [String.data_append, String.data_append, List.append_assoc]
  exact hasSubstr_append_left _ _ _ (hasSubstr_self_append _ _)

/-- The accumulation loop of the formatter concatenates one block per
displayed flight. -/
theorem flightBlocks_eq_join (fs : List Flight) :
    flightBlocks fs = String.join (fs.map flightBlock) := by
  simp [flightBlocks, String.join, List.foldl_map]

/-- C7: when more flights match than the display maximum, the output is the
count header, exactly `k` flight blocks, and a trailing truncation note
that contains the decimal numerals of both `k` and the total; with at most
`k` matches, the output is the header and one block per flight, with no
note appended. -/
theorem claim_c7_truncated_output (fs : List Flight) (k : Nat) :
    (k < fs.length →
      format_flights_list fs k
          = listHeader fs.length ++ String.join ((fs.take k).map flightBlock)
              ++ truncNote k fs.length
        ∧ ((fs.take k).map flightBlock).length = k
        ∧ strHas (toString k) (truncNote k fs.length) = true
        ∧ strHas (toString fs.length) (truncNote k fs.length) = true)
    ∧ (fs ≠ [] → fs.length ≤ k →
      format_flights_list fs k
          = listHeader fs.length ++ String.join (fs.map flightBlock)) := by
  constructor
  · intro hk
    have hne : fs ≠ [] := by
      intro h
      rw [h] at hk
      simp at hk
    refine ⟨?_, ?_, ?_, ?_⟩
    · unfold format_flights_list
      rw [if_neg hne, if_pos hk, flightBlocks_eq_join]
    · rw [List.length_map, List.length_take]
      omega
    · unfold truncNote
      simp only [strHas, String.data_append, List.append_assoc]
      exact hasSubstr_append_left _ _ _ (hasSubstr_self_append _ _)
    · unfold truncNote
      simp only [strHas, String.data_append, List.append_assoc]
      exact hasSubstr_append_left _ _ _ (hasSubstr_append_left _ _ _
        (hasSubstr_append_left _ _ _ (hasSubstr_self_append _ _)))
  · intro hne hle
    unfold format_flights_list
    rw [if_neg hne, if_neg (by omega : ¬fs.length > k),
      List.take_of_length_le hle, flightBlocks_eq_join, String.append_empty]

/-- Witness for C7 at the spec instance: eight matching flights with a
display maximum of five, and a three-flight list with no truncation. -/
theorem claim_c7_witness :
    (format_flights_list fs8 5
        = listHeader fs8.length ++ String.join ((fs8.take 5).map flightBlock)
            ++ truncNote 5 fs8.length
      ∧ ((fs8.take 5).map flightBlock).length = 5
      ∧ strHas (toString 5) (truncNote 5 fs8.length) = true
      ∧ strHas (toString fs8.length) (truncNote 5 fs8.length) = true)
    ∧ format_flights_list fs3 5
        = listHeader fs3.length ++ String.join (fs3.map flightBlock) :=
  ⟨(claim_c7_truncated_output fs8 5).1 (by decide),
   (claim_c7_truncated_output fs3 5).2 (by decide) (by decide)⟩

/-! ### Lemmas for the dynamically-typed model -/

theorem exceptBind_ok {α β : Type} (a : α) (f : α → Except PyErr β) :
    (Except.ok a : Except PyErr α) >>= f = f a := rfl

/-- A comprehension whose predicate never raises on the elements at hand
returns a sublist of its input without raising. -/
theorem filterE_ok {α : Type} {p : α → Except PyErr Bool} :
    ∀ {l : List α}, (∀ x ∈ l, ∃ b, p x = .ok b) →
      ∃ r, filterE p l = .ok r ∧ ∀ x ∈ r, x ∈ l := by
  intro l h
  induction l with
  | nil => exact ⟨[], rfl, by simp⟩
  | cons a t ih =>
    obtain ⟨b, hb⟩ := h a (List.mem_cons_self a t)
    obtain ⟨r, hr, hsub⟩ := ih (fun x hx => h x (List.mem_cons_of_mem a hx))
    refine ⟨if b then a :: r else r, ?_, ?_⟩
    · show (p a >>= fun b => filterE p t >>= fun rest =>
          pure (if b then a :: rest else rest) : Except PyErr (List α))
        = Except.ok (if b then a :: r else r)
      simp only [hb, exceptBind_ok, hr]
      rfl
    · intro x hx
      cases b with
      | true =>
        rw [if_pos rfl] at hx
        rcases List.mem_cons.mp hx with rfl | hx
        · exact List.mem_cons_self x t
        · exact List.mem_cons_of_mem a (hsub x hx)
      | false =>
        rw [if_neg (by simp)] at hx
        exact List.mem_cons_of_mem a (hsub x hx)

theorem dGet_cases (d : Dyn) (k : String) (dflt : JVal) :
    dGet d k dflt = dflt ∨ ∃ p ∈ d, p.1 = k ∧ dGet d k dflt = p.2 := by
  unfold dGet
  cases hf : d.find? (fun p => p.1 == k) with
  | none => exact Or.inl rfl
  | some p =>
    refine Or.inr ⟨p, List.mem_of_find?_eq_some hf, ?_, rfl⟩
    simpa using List.find?_some hf

theorem dGetOpt_cases (d : Dyn) (k : String) :
    dGetOpt d k = none ∨ ∃ p ∈ d, p.1 = k ∧ dGetOpt d k = some p.2 := by
  unfold dGetOpt
  cases hf : d.find? (fun p => p.1 == k) with
  | none => exact Or.inl rfl
  | some p =>
    refine Or.inr ⟨p, List.mem_of_find?_eq_some hf, ?_, rfl⟩
    simpa using List.find?_some hf

/-- On a schema-conforming record, a defaulted field read yields the
default or a value of the documented shape. -/
theorem wellTyped_dGet (d : Dyn) (k : String) (dflt : JVal)
    (h : wellTypedRec d) :
    dGet d k dflt = dflt ∨ fieldOk k (dGet d k dflt) = true := by
  rcases dGet_cases d k dflt with h1 | ⟨p, hp, hk, he⟩
  · exact Or.inl h1
  · right
    rw [he, ← hk]
    exact h p hp

theorem wellTyped_dGetOpt (d : Dyn) (k : String) (h : wellTypedRec d) :
    dGetOpt d k = none ∨ ∃ v, dGetOpt d k = some v ∧ fieldOk k v = true := by
  rcases dGetOpt_cases d k with h1 | ⟨p, hp, hk, he⟩
  · exact Or.inl h1
  · exact Or.inr ⟨p.2, he, by rw [← hk]; exact h p hp⟩

theorem fieldOk_str_shape (key : String)
    (hk : (key == "from" || key == "to" || key == "airline"
      || key == "alliance") = true) :
    ∀ v, fieldOk key v = true → ∃ s, v = JVal.str s := by
  intro v hv
  unfold fieldOk at hv
  rw [if_pos hk] at hv
  cases v with
  | str s => exact ⟨s, rfl⟩
  | null => exact Bool.noConfusion hv
  | bool b => exact Bool.noConfusion hv
  | num q => exact Bool.noConfusion hv
  | arr xs => exact Bool.noConfusion hv

theorem fieldOk_price_shape :
    ∀ v, fieldOk "price_usd" v = true → ∃ q, v = JVal.num q := by
  intro v hv
  cases v with
  | num q => exact ⟨q, rfl⟩
  | null => exact Bool.noConfusion hv
  | bool b => exact Bool.noConfusion hv
  | str s => exact Bool.noConfusion hv
  | arr xs => exact Bool.noConfusion hv

theorem fieldOk_layovers_shape :
    ∀ v, fieldOk "layovers" v = true → ∃ xs, v = JVal.arr xs := by
  intro v hv
  cases v with
  | arr xs => exact ⟨xs, rfl⟩
  | null => exact Bool.noConfusion hv
  | bool b => exact Bool.noConfusion hv
  | num q => exact Bool.noConfusion hv
  | str s => exact Bool.noConfusion hv

theorem strFieldStageD_ok (key : String) (o : Option String) (rs : List Dyn)
    (hrs : ∀ d ∈ rs, wellTypedRec d)
    (hkey : ∀ v, fieldOk key v = true → ∃ s, v = JVal.str s) :
    ∃ r, strFieldStageD key o rs = .ok r ∧ ∀ d ∈ r, d ∈ rs := by
  cases o with
  | none => exact ⟨rs, rfl, fun d hd => hd⟩
  | some s =>
    rw [strFieldStageD]
    by_cases hs : s = ""
    · rw [if_pos hs]
      exact ⟨rs, rfl, fun d hd => hd⟩
    · rw [if_neg hs]
      apply filterE_ok
      intro f hf
      rcases wellTyped_dGet f key (JVal.str "") (hrs f hf) with hd | hd
      · rw [hd]
        exact ⟨_, rfl⟩
      · obtain ⟨t, ht⟩ := hkey _ hd
        rw [ht]
        exact ⟨_, rfl⟩

theorem dateStageD_ok (parse : String → Option PDate) (m y : Option Int)
    (rs : List Dyn) :
    ∃ r, dateStageD parse m y rs = .ok r ∧ ∀ d ∈ r, d ∈ rs := by
  cases m with
  | none => exact ⟨rs, rfl, fun d hd => hd⟩
  | some m =>
    cases y with
    | none => exact ⟨rs, rfl, fun d hd => hd⟩
    | some y =>
      rw [dateStageD]
      by_cases hc : (m != 0 && y != 0) = true
      · rw [if_pos hc]
        exact filterE_ok (fun x _ => ⟨_, rfl⟩)
      · rw [if_neg hc]
        exact ⟨rs, rfl, fun d hd => hd⟩

theorem priceStageD_ok (mp : Option ℚ) (rs : List Dyn)
    (hrs : ∀ d ∈ rs, wellTypedRec d) :
    ∃ r, priceStageD mp rs = .ok r ∧ ∀ d ∈ r, d ∈ rs := by
  cases mp with
  | none => exact ⟨rs, rfl, fun d hd => hd⟩
  | some m =>
    apply filterE_ok
    intro f hf
    rcases wellTyped_dGetOpt f "price_usd" (hrs f hf) with hd | ⟨v, hv, hok⟩
    · rw [show pyPriceLe (dGetOpt f "price_usd") m
          = pyPriceLe none m from by rw [hd]]
      exact ⟨_, rfl⟩
    · obtain ⟨q, rfl⟩ := fieldOk_price_shape v hok
      rw [show pyPriceLe (dGetOpt f "price_usd") m
          = pyPriceLe (some (JVal.num q)) m from by rw [hv]]
      exact ⟨_, rfl⟩

theorem refundableStageD_ok (only : Bool) (rs : List Dyn) :
    ∃ r, refundableStageD only rs = .ok r ∧ ∀ d ∈ r, d ∈ rs := by
  cases only with
  | false => exact ⟨rs, rfl, fun d hd => hd⟩
  | true => exact filterE_ok (fun x _ => ⟨_, rfl⟩)

theorem overnightStageD_ok (avoid : Bool) (rs : List Dyn) :
    ∃ r, overnightStageD avoid rs = .ok r ∧ ∀ d ∈ r, d ∈ rs := by
  cases avoid with
  | false => exact ⟨rs, rfl, fun d hd => hd⟩
  | true => exact filterE_ok (fun x _ => ⟨_, rfl⟩)

theorem layoverStageD_ok (ml : Option Int) (rs : List Dyn)
    (hrs : ∀ d ∈ rs, wellTypedRec d) :
    ∃ r, layoverStageD ml rs = .ok r ∧ ∀ d ∈ r, d ∈ rs := by
  cases ml with
  | none => exact ⟨rs, rfl, fun d hd => hd⟩
  | some k =>
    apply filterE_ok
    intro f hf
    rcases wellTyped_dGet f "layovers" (JVal.arr []) (hrs f hf) with hd | hd
    · rw [show dGet f "layovers" (JVal.arr []) = JVal.arr [] from hd]
      exact ⟨_, rfl⟩
    · obtain ⟨xs, hx⟩ := fieldOk_layovers_shape _ hd
      rw [hx]
      exact ⟨_, rfl⟩

theorem sortD_ok (rs : List Dyn) (hrs : ∀ d ∈ rs, wellTypedRec d) :
    ∃ r, sortD rs = .ok r := by
  unfold sortD
  have hall : rs.all (fun d => keyIsNumeric (dPriceKey d)) = true := by
    rw [List.all_eq_true]
    intro d hd
    rcases wellTyped_dGetOpt d "price_usd" (hrs d hd) with h | ⟨v, hv, hok⟩
    · unfold dPriceKey
      rw [h]
      rfl
    · obtain ⟨q, rfl⟩ := fieldOk_price_shape v hok
      unfold dPriceKey
      rw [hv]
      rfl
  rw [if_pos hall]
  exact ⟨_, rfl⟩

/-- C4 counterexample: a single catalog record whose `price_usd` is the
string "cheap" makes a max-price search raise a `TypeError` from the
comparison with the float ceiling, aborting the whole search. -/
theorem claim_c4_counterexample :
    searchD parseNone (maxPriceOnly 500) [dynBadPrice]
      = .error PyErr.typeError := rfl

/-- C4 amended: `search` never raises on catalogs whose records may omit
any field — every present field of the documented type, any subset absent —
because each anomaly is a missing field resolved by a `get` default; the
result is then produced without error. -/
theorem claim_c4_amended_missing_fields_total
    (parse : String → Option PDate) (c : Criteria) (flights : List Dyn)
    (h : ∀ d ∈ flights, wellTypedRec d) :
    ∃ r, searchD parse c flights = .ok r := by
  obtain ⟨r1, h1, s1⟩ := strFieldStageD_ok "from" c.origin flights h
    (fieldOk_str_shape "from" (by decide))
  have w1 : ∀ d ∈ r1, wellTypedRec d := fun d hd => h d (s1 d hd)
  obtain ⟨r2, h2, s2⟩ := strFieldStageD_ok "to" c.destination r1 w1
    (fieldOk_str_shape "to" (by decide))
  have w2 : ∀ d ∈ r2, wellTypedRec d := fun d hd => w1 d (s2 d hd)
  obtain ⟨r3, h3, s3⟩ :=
    dateStageD_ok parse c.departure_month c.departure_year r2
  have w3 : ∀ d ∈ r3, wellTypedRec d := fun d hd => w2 d (s3 d hd)
  obtain ⟨r4, h4, s4⟩ := strFieldStageD_ok "alliance" c.alliance r3 w3
    (fieldOk_str_shape "alliance" (by decide))
  have w4 : ∀ d ∈ r4, wellTypedRec d := fun d hd => w3 d (s4 d hd)
  obtain ⟨r5, h5, s5⟩ := strFieldStageD_ok "airline" c.airline r4 w4
    (fieldOk_str_shape "airline" (by decide))
  have w5 : ∀ d ∈ r5, wellTypedRec d := fun d hd => w4 d (s5 d hd)
  obtain ⟨r6, h6, s6⟩ := priceStageD_ok c.max_price r5 w5
  have w6 : ∀ d ∈ r6, wellTypedRec d := fun d hd => w5 d (s6 d hd)
  obtain ⟨r7, h7, s7⟩ := refundableStageD_ok c.refundable_only r6
  have w7 : ∀ d ∈ r7, wellTypedRec d := fun d hd => w6 d (s7 d hd)
  obtain ⟨r8, h8, s8⟩ := overnightStageD_ok c.avoid_overnight_layover r7
  have w8 : ∀ d ∈ r8, wellTypedRec d := fun d hd => w7 d (s8 d hd)
  obtain ⟨r9, h9, s9⟩ := layoverStageD_ok c.max_layovers r8 w8
  have w9 : ∀ d ∈ r9, wellTypedRec d := fun d hd => w8 d (s9 d hd)
  show ∃ r,
    (originStageD c.origin flights >>= fun r =>
      destStageD c.destination r >>= fun r =>
      dateStageD parse c.departure_month c.departure_year r >>= fun r =>
      allianceStageD c.alliance r >>= fun r =>
      airlineStageD c.airline r >>= fun r =>
      priceStageD c.max_price r >>= fun r =>
      refundableStageD c.refundable_only r >>= fun r =>
      overnightStageD c.avoid_overnight_layover r >>= fun r =>
      layoverStageD c.max_layovers r >>= fun r =>
      sortD r) = .ok r
  rw [show originStageD c.origin flights = .ok r1 from h1, exceptBind_ok,
    show destStageD c.destination r1 = .ok r2 from h2, exceptBind_ok,
    h3, exceptBind_ok,
    show allianceStageD c.alliance r3 = .ok r4 from h4, exceptBind_ok,
    show airlineStageD c.airline r4 = .ok r5 from h5, exceptBind_ok,
    h6, exceptBind_ok, h7, exceptBind_ok, h8, exceptBind_ok,
    h9, exceptBind_ok]
  exact sortD_ok r9 w9

/-- Witness for the amended C4: a record missing several fields is searched
without error under the default criteria. -/
theorem claim_c4_amended_witness :
    ∃ r, searchD parseNone defaultCriteria [dynGood] = .ok r :=
  claim_c4_amended_missing_fields_total parseNone defaultCriteria [dynGood]
    (by decide)

end TravelAssistant
